import Mathlib

/-!
Shallow embedding of the trajectory converter (`convert_trajectory.py`).

Text is modelled as `List Char`.  Python regular expressions used by the
converter are modelled by a small backtracking matcher (`matchItems`) that
follows the semantics of Python `re`: leftmost match wins, greedy pieces try
the longest repetition first, lazy pieces try the shortest first, and the
search backtracks depth first.  All patterns in the source repeat only
single-character classes, so the matcher needs no general star.
-/

namespace TrajConv

abbrev Str := List Char

def strL (s : String) : Str := s.toList

/-- The single-quote character (spelled numerically). -/
def sq : Char := Char.ofNat 39

/-- Python `str.isspace` over the ASCII whitespace class used by `\s`
and by `str.strip`: space, tab, newline, carriage return, form feed,
vertical tab. -/
def isSpace (c : Char) : Bool :=
  c = ' ' || c = '\t' || c = '\n' || c = '\r' || c = Char.ofNat 12 || c = Char.ofNat 11

def isDigit (c : Char) : Bool := '0' ≤ c && c ≤ '9'

/-- Python `str.lstrip()`. -/
def pyLstrip (s : Str) : Str := s.dropWhile isSpace

/-- Python `str.rstrip()`. -/
def pyRstrip (s : Str) : Str := (s.reverse.dropWhile isSpace).reverse

/-- Python `str.strip()`. -/
def pyStrip (s : Str) : Str := pyRstrip (pyLstrip s)

/-- Test whether `pat` is an initial run of `s` (`startsWith pat s`). -/
def startsWith : Str → Str → Bool
  | [], _ => true
  | _ :: _, [] => false
  | p :: ps, c :: cs => p = c && startsWith ps cs

/-- Everything after the first occurrence of `pat` in `s`
(Python `s[s.find(pat) + len(pat):]`), or `none` when `pat` does not occur. -/
def afterFirst (pat : Str) : Str → Option Str
  | [] => if startsWith pat [] then some [] else none
  | c :: rest =>
    if startsWith pat (c :: rest) then some ((c :: rest).drop pat.length)
    else afterFirst pat rest

/-- Everything before the first occurrence of `pat` in `s`, or `none` when
`pat` does not occur. -/
def beforeFirst (pat : Str) : Str → Option Str
  | [] => if startsWith pat [] then some [] else none
  | c :: rest =>
    if startsWith pat (c :: rest) then some []
    else (beforeFirst pat rest).map (fun t => c :: t)

/-- Python `pat in s` (substring containment). -/
def pyContains (pat s : Str) : Bool := (afterFirst pat s).isSome

/-- Worker for `pyReplace`, structurally recursive on a fuel that starts at
the string length; every step consumes at least one character of the string
and exactly one unit of fuel, so the fuel never runs out first. -/
def pyReplaceAux (pat rep : Str) : Nat → Str → Str
  | _, [] => []
  | 0, s => s
  | fuel + 1, c :: rest =>
    if pat ≠ [] ∧ startsWith pat (c :: rest) then
      rep ++ pyReplaceAux pat rep fuel ((c :: rest).drop pat.length)
    else
      c :: pyReplaceAux pat rep fuel rest

/-- Python `s.replace(pat, rep)` for a non-empty `pat`: replace every
occurrence, scanning left to right without overlap. -/
def pyReplace (pat rep s : Str) : Str := pyReplaceAux pat rep s.length s

/-- Python `int` on a run of decimal digits. -/
def strToNatAux (acc : Nat) : Str → Nat
  | [] => acc
  | c :: rest => strToNatAux (acc * 10 + (c.toNat - 48)) rest

def strToNat (s : Str) : Nat := strToNatAux 0 s

/-! ### Regular-expression items

The converter uses five regexes; each is a sequence of the items below.
`anyLazy`/`anyGreedy` are `(.+?)`/`(.+)` under `re.DOTALL`;
`anyLazyNoNL`/`anyGreedyNoNL` are the same without `DOTALL` (so `.` refuses
a newline); `digitsGreedy` is `(\d+)`; `wsPlus` is a non-capturing `\s+`. -/

inductive RItem
  | lit (l : Str)
  | wsPlus
  | anyLazy
  | anyGreedy
  | anyLazyNoNL
  | anyGreedyNoNL
  | digitsGreedy
  deriving DecidableEq

/-- Length of the maximal whitespace run at the front of `s`. -/
def wsRun (s : Str) : Nat := (s.takeWhile isSpace).length

/-- Length of the maximal newline-free run at the front of `s`. -/
def nonNLRun (s : Str) : Nat := (s.takeWhile (fun c => c ≠ '\n')).length

/-- Length of the maximal digit run at the front of `s`. -/
def digitRun (s : Str) : Nat := (s.takeWhile isDigit).length

/-- Greedy repetition of a capturing single-character class: try the take of
length `k` first, backtracking to shorter takes, never to an empty one. -/
def tryCapDesc (next : Str → Option (List Str)) (s : Str) : Nat → Option (List Str)
  | 0 => none
  | k + 1 =>
    match next (s.drop (k + 1)) with
    | some caps => some (s.take (k + 1) :: caps)
    | none => tryCapDesc next s k

/-- Greedy `\s+` (non-capturing): longest whitespace run first. -/
def tryWsDesc (next : Str → Option (List Str)) (s : Str) : Nat → Option (List Str)
  | 0 => none
  | k + 1 =>
    match next (s.drop (k + 1)) with
    | some caps => some caps
    | none => tryWsDesc next s k

/-- Lazy `(.+?)`: shortest capture first, extending one character at a time.
When `dotall` is false the capture may not take a newline. -/
def tryCapAsc (next : Str → Option (List Str)) (dotall : Bool) (acc : Str) :
    Str → Option (List Str)
  | [] => none
  | c :: rest =>
    if dotall = false ∧ c = '\n' then none
    else
      match next rest with
      | some caps => some ((acc ++ [c]) :: caps)
      | none => tryCapAsc next dotall (acc ++ [c]) rest

/-- Backtracking matcher for a sequence of items, anchored at the start of
`s`; on success it returns the captured groups in order.  The tail of the
string after a full match is unconstrained, as with Python `re.match`. -/
def matchItems : List RItem → Str → Option (List Str)
  | [], _ => some []
  | .lit l :: rest, s =>
    if startsWith l s then matchItems rest (s.drop l.length) else none
  | .wsPlus :: rest, s => tryWsDesc (matchItems rest) s (wsRun s)
  | .anyLazy :: rest, s => tryCapAsc (matchItems rest) true [] s
  | .anyLazyNoNL :: rest, s => tryCapAsc (matchItems rest) false [] s
  | .anyGreedy :: rest, s => tryCapDesc (matchItems rest) s s.length
  | .anyGreedyNoNL :: rest, s => tryCapDesc (matchItems rest) s (nonNLRun s)
  | .digitsGreedy :: rest, s => tryCapDesc (matchItems rest) s (digitRun s)

/-- Python `re.search`: try every start position from the left. -/
def reSearch (pat : List RItem) : Str → Option (List Str)
  | [] => matchItems pat []
  | c :: rest =>
    match matchItems pat (c :: rest) with
    | some caps => some caps
    | none => reSearch pat rest

/-- Python `re.match`: anchored at the start. -/
def reMatch (pat : List RItem) (s : Str) : Option (List Str) := matchItems pat s

/-! ### The five patterns of `parse_action` -/

/-- Pattern `str_replace_editor\s+create\s+(.+?)\s+--file_text\s+(.+)` with `DOTALL`. -/
def createPat : List RItem :=
  [.lit (strL "str_replace_editor"), .wsPlus, .lit (strL "create"), .wsPlus,
   .anyLazy, .wsPlus, .lit (strL "--file_text"), .wsPlus, .anyGreedy]

/-- Pattern `str_replace_editor\s+str_replace\s+(.+?)\s+--old_str\s+(.+?)\s+--new_str\s+(.+)`
with `DOTALL`. -/
def strReplacePat : List RItem :=
  [.lit (strL "str_replace_editor"), .wsPlus, .lit (strL "str_replace"), .wsPlus,
   .anyLazy, .wsPlus, .lit (strL "--old_str"), .wsPlus,
   .anyLazy, .wsPlus, .lit (strL "--new_str"), .wsPlus, .anyGreedy]

/-- Pattern `str_replace_editor\s+view\s+(.+?)\s+--view_range\s+(\d+)\s+(\d+)`
(no `DOTALL`). -/
def viewRangePat : List RItem :=
  [.lit (strL "str_replace_editor"), .wsPlus, .lit (strL "view"), .wsPlus,
   .anyLazyNoNL, .wsPlus, .lit (strL "--view_range"), .wsPlus,
   .digitsGreedy, .wsPlus, .digitsGreedy]

/-- Pattern `str_replace_editor\s+view\s+(.+)` (no `DOTALL`). -/
def viewPat : List RItem :=
  [.lit (strL "str_replace_editor"), .wsPlus, .lit (strL "view"), .wsPlus,
   .anyGreedyNoNL]

def matchCreate (s : Str) : Option (Str × Str) :=
  match reSearch createPat s with
  | some [g1, g2] => some (g1, g2)
  | _ => none

def matchStrReplace (s : Str) : Option (Str × Str × Str) :=
  match reSearch strReplacePat s with
  | some [g1, g2, g3] => some (g1, g2, g3)
  | _ => none

def matchViewRange (s : Str) : Option (Str × Str × Str) :=
  match reMatch viewRangePat s with
  | some [g1, g2, g3] => some (g1, g2, g3)
  | _ => none

def matchView (s : Str) : Option Str :=
  match reMatch viewPat s with
  | some [g1] => some g1
  | _ => none

/-! ### Fixed literal strings of the converter -/

def submitLit : Str := strL "submit"

/-- The `clipped_ending` literal of `clean_openfile_observation`. -/
def clippedEnding : Str :=
  strL "<response clipped><NOTE>To save on context only part of this file has been shown to you. You should retry this tool after you have searched inside the file with `grep -n` in order to find the line numbers of what you are looking for.</NOTE>\n<IMPORTANT><NOTE>The above file has been abbreviated. Please use `str_replace editor view` with `view_range` to look at relevant files in detail.</NOTE></IMPORTANT>"

/-- The `review_ending` literal removed from `str_replace` observations. -/
def reviewEnding : Str :=
  strL "\nReview the changes and make sure they are as expected. Edit the file again if necessary.\n"

/-- The `expected_pattern` directory-listing preamble (the apostrophe is
spelled via `sq`). -/
def dirPreamble : Str :=
  strL "Here" ++ [sq] ++
    strL "s the files and directories up to 2 levels deep in /testbed, excluding hidden items:"

/-- The initial tracker snapshot: `"<workspace>\n</workspace>"`. -/
def initWorkspace : Str := strL "<workspace>\n</workspace>"

/-! ### Text cleaners and the workspace formatter -/

/-- Function `clean_openfile_observation`: drop every occurrence of the truncation
notice, then strip trailing whitespace; untouched text is returned as is. -/
def clean_openfile_observation (observation_text : Str) : Str :=
  if observation_text = [] then observation_text
  else if pyContains clippedEnding observation_text then
    pyRstrip (pyReplace clippedEnding [] observation_text)
  else observation_text

/-- Function `extract_workspace_from_observation`.  The Python source has separate
branches for a present and an absent/empty `file_path`, but they produce the
same text when the path is the empty string, so a single template suffices. -/
def extract_workspace_from_observation (observation_text : Str) (file_path : Str) : Str :=
  if observation_text = [] then
    strL "<workspace>\n" ++ file_path ++
      strL "\n=========FILE CONTENT=======\n\n=========FILE CONTENT=======\n</workspace>"
  else if observation_text.contains '\n' then
    strL "<workspace>\n" ++ file_path ++ strL "\n=========FILE CONTENT=======" ++
      observation_text.drop (nonNLRun observation_text) ++
      strL "\n=========FILE CONTENT=======\n</workspace>"
  else
    strL "<workspace>\n" ++ file_path ++ strL "\n=========FILE CONTENT=======\n" ++
      observation_text ++ strL "\n=========FILE CONTENT=======\n</workspace>"

/-- Function `extract_problem_from_content` restricted to string content: the text
between the first `<pr_description>` tag and the first `</pr_description>`
tag after it, stripped; `none` when the tags are not found or the content is
empty.  (The dict/list unwrapping of the Python source is outside the claims
under verification.) -/
def extract_problem_from_content (content : Str) : Option Str :=
  if content = [] then none
  else
    match afterFirst (strL "<pr_description>") content with
    | none => none
    | some tail =>
      match beforeFirst (strL "</pr_description>") tail with
      | none => none
      | some body => some (pyStrip body)

/-- Worker for `findLineNumbers`, structurally recursive on a fuel that
starts at the string length (each step consumes at least one character and
one unit of fuel). -/
def findLineNumbersAux : Nat → Str → List Nat
  | _, [] => []
  | 0, _ => []
  | fuel + 1, c :: rest =>
    if c = '\n' then
      let afterWs := rest.dropWhile isSpace
      let digs := afterWs.takeWhile isDigit
      if digs = [] then findLineNumbersAux fuel rest
      else strToNat digs :: findLineNumbersAux fuel (afterWs.drop digs.length)
    else findLineNumbersAux fuel rest

/-- Models `re.finditer(r&#92;n&#92;s*(&#92;d+))` over the observation: at each
newline, skip the following whitespace run; a maximal digit run found there
is one candidate, and the non-overlapping scan resumes after its digits. -/
def findLineNumbers (s : Str) : List Nat := findLineNumbersAux s.length s

def listMin : List Nat → Nat
  | [] => 0
  | x :: xs => xs.foldl Nat.min x

def listMax : List Nat → Nat
  | [] => 0
  | x :: xs => xs.foldl Nat.max x

/-- The review-footer cleaning applied to `str_replace` observations. -/
def cleaned_replace_observation (observation_text : Str) : Str :=
  if observation_text ≠ [] ∧ pyContains reviewEnding observation_text then
    pyRstrip (pyReplace reviewEnding [] observation_text)
  else observation_text

/-! ### Action records -/

/-- One normalized action record, one constructor per `name` the classifier
can emit.  `placeholder` is the bare `"<actions>"` string returned for an
empty action; record fields mirror the `input`/`output` keys of the Python
dicts (an `executeCmd` output carries only `stdout`, an `endInteraction`
has output `None`, and the four file-touching variants carry
`output.workspace`). -/
inductive ParsedAction
  | placeholder
  | endInteraction (answer : Str)
  | createFile (file_path file_content workspace : Str)
  | replaceCodeString (file_path find replace : Str)
      (replace_start_line replace_end_line : Option Int) (workspace : Str)
  | selectCodeBlock (file_path : Str) (range_start range_end : Nat) (workspace : Str)
  | openFile (file_path : Str) (workspace : Str)
  | executeCmd (cmd stdout : Str)
  | beginInteraction (user_prompt repo : Str) (problem : Option Str)
  deriving DecidableEq

/-- Function `get_workspace_from_action`: the `output.workspace` value of a record,
when its output dict has one. -/
def get_workspace_from_action : ParsedAction → Option Str
  | .createFile _ _ w => some w
  | .replaceCodeString _ _ _ _ _ w => some w
  | .selectCodeBlock _ _ _ w => some w
  | .openFile _ w => some w
  | _ => none

/-- The literal command synthesized for a directory view
(`find {path} -maxdepth 2 -not -path PAT` where `PAT` is the single-quoted
glob containing one backslash). -/
def findCmd (path : Str) : Str :=
  strL "find " ++ path ++ strL " -maxdepth 2 -not -path " ++ [sq] ++ strL "*/\\.*" ++ [sq]

/-- The workspace emitted for `createFile`: the delimiter template around the
file content, with the fixed path line `/testbed/reproduce.py`. -/
def createWorkspace (file_content : Str) : Str :=
  strL "<workspace>\n/testbed/reproduce.py\n=========FILE CONTENT=======\n" ++
    file_content ++ strL "\n=========FILE CONTENT=======\n</workspace>"

/-- Function `parse_action`: the first-match-wins classifier. -/
def parse_action (action_text observation_text : Str) : List ParsedAction :=
  if action_text = [] then [ParsedAction.placeholder]
  else if pyStrip action_text = submitLit then
    [ParsedAction.endInteraction observation_text]
  else
    match matchCreate (pyStrip action_text) with
    | some (fp, fc) =>
      [ParsedAction.createFile (pyStrip fp) (pyStrip fc) (createWorkspace (pyStrip fc))]
    | none =>
      match matchStrReplace (pyStrip action_text) with
      | some (fp, olds, news) =>
        let nums := findLineNumbers observation_text
        [ParsedAction.replaceCodeString (pyStrip fp) (pyStrip olds) (pyStrip news)
          (if nums = [] then none else some ((listMin nums : Int) + 4))
          (if nums = [] then none else some ((listMax nums : Int) - 4))
          (extract_workspace_from_observation (cleaned_replace_observation observation_text)
            (pyStrip fp))]
      | none =>
        match matchViewRange (pyStrip action_text) with
        | some (fp, lo, hi) =>
          [ParsedAction.selectCodeBlock (pyStrip fp) (strToNat lo) (strToNat hi)
            (extract_workspace_from_observation observation_text (pyStrip fp))]
        | none =>
          match matchView (pyStrip action_text) with
          | some p =>
            match (if observation_text ≠ [] then afterFirst dirPreamble observation_text
                   else none) with
            | some tail =>
              [ParsedAction.executeCmd (findCmd (pyStrip p)) (pyStrip tail)]
            | none =>
              [ParsedAction.openFile (pyStrip p)
                (extract_workspace_from_observation
                  (clean_openfile_observation observation_text) (pyStrip p))]
          | none => [ParsedAction.executeCmd action_text observation_text]

/-! ### Raw input items -/

/-- The JSON value stored under the `clustered` key of a raw step (only scalar
values matter to the comparisons in the converter). -/
inductive CVal
  | cnull
  | cbool (b : Bool)
  | cint (n : Int)
  | cstr (s : Str)
  deriving DecidableEq

/-- Python `value == True` on the `clustered` field: the Python `bool` is an
`int` subtype, so the integer `1` also compares equal to `True`; every other
modelled value does not. -/
def pyEqTrue : Option CVal → Bool
  | some (.cbool true) => true
  | some (.cint n) => n = 1
  | _ => false

/-- Python `value == False`: `False` itself and the integer `0`. -/
def pyEqFalse : Option CVal → Bool
  | some (.cbool false) => true
  | some (.cint n) => n = 0
  | _ => false

/-- One raw input mapping.  `none` models an absent key; `isStepZero` models
the truthiness of that field.  `actionsArr`/`observationsArr` are the
parallel arrays of a clustered group. -/
structure RawDict where
  isStepZero : Bool := false
  clustered : Option CVal := none
  originalIndex : Option Int := none
  action : Option Str := none
  observation : Option Str := none
  thought : Option Str := none
  summary : Option Str := none
  content : Option Str := none
  repo : Option Str := none
  actionsArr : Option (List Str) := none
  observationsArr : Option (List Str) := none
  deriving DecidableEq

/-- One element of the input array: a mapping, or anything that is not a
mapping (which `isinstance(item, dict)` rejects). -/
inductive RawItem
  | dict (d : RawDict)
  | nondict
  deriving DecidableEq

/-! ### The step linearizer -/

/-- The single pass of `convert_trajectory` that partitions the input:
the last truthy-`isStepZero` mapping wins as step zero; other mappings go to
the clustered group when `clustered == True`, to the ordinary group when
`clustered == False`, and are dropped otherwise (as is every non-mapping). -/
def scanItems :
    Option RawDict × List RawDict × List RawDict → List RawItem →
      Option RawDict × List RawDict × List RawDict
  | acc, [] => acc
  | (sz, ts, cs), .nondict :: rest => scanItems (sz, ts, cs) rest
  | (sz, ts, cs), .dict d :: rest =>
    if d.isStepZero then scanItems (some d, ts, cs) rest
    else if pyEqTrue d.clustered then scanItems (sz, ts, cs ++ [d]) rest
    else if pyEqFalse d.clustered then scanItems (sz, ts ++ [d], cs) rest
    else scanItems (sz, ts, cs) rest

/-- The sort key: `originalIndex`, defaulting to 0 when absent. -/
def sortKey (d : RawDict) : Int := d.originalIndex.getD 0

def stepLE (a b : RawDict) : Prop := sortKey a ≤ sortKey b

instance : DecidableRel stepLE := fun a b => inferInstanceAs (Decidable (sortKey a ≤ sortKey b))

instance : IsTotal RawDict stepLE := ⟨fun a b => Int.le_total (sortKey a) (sortKey b)⟩

instance : IsTrans RawDict stepLE := ⟨fun _ _ _ => Int.le_trans⟩

/-- Python `list.sort(key=...)` is a stable ascending sort; insertion sort
with a total `≤` on keys computes the same list. -/
def sortSteps (l : List RawDict) : List RawDict := List.insertionSort stepLE l

/-- Python `max(iterable, key=...)`: the first element attaining the maximal
key (later elements replace the champion only when strictly greater). -/
def pyMaxBy : RawDict → List RawDict → RawDict
  | m, [] => m
  | m, x :: xs => if sortKey m < sortKey x then pyMaxBy x xs else pyMaxBy m xs

def trajectorySteps (input : List RawItem) : List RawDict :=
  sortSteps (scanItems (none, [], []) input).2.1

def clusteredStepsOf (input : List RawItem) : List RawDict :=
  sortSteps (scanItems (none, [], []) input).2.2

def stepZeroOf (input : List RawItem) : Option RawDict :=
  (scanItems (none, [], []) input).1

/-- The list `all_steps`: the two already-sorted groups concatenated and sorted again
by `originalIndex` (stable, so ordinary steps precede clustered ones on
ties). -/
def mergedSteps (input : List RawItem) : List RawDict :=
  sortSteps (trajectorySteps input ++ clusteredStepsOf input)

def placeholderObs : Str := strL "No observation available"

/-- Root `metadata.patch`: the observation of the ordinary step with the
largest `originalIndex` (defaulting to the fixed placeholder when that step
has no observation), or `None` when there are no ordinary steps. -/
def rootPatch (ts : List RawDict) : Option Str :=
  match ts with
  | [] => none
  | m :: rest => some ((pyMaxBy m rest).observation.getD placeholderObs)

/-- Entry metadata: the root entry carries `patch`/`hints_text`/`stage`, all
other entries carry `workspace`/`stage`. -/
inductive EntryMeta
  | root (patch : Option Str) (hints_text stage : Str)
  | step (workspace stage : Str)
  deriving DecidableEq

structure Entry where
  id : Nat
  parent : Option Nat
  actions : List ParsedAction
  thought : Option Str
  metadata : EntryMeta
  deriving DecidableEq

def Entry.workspaceMeta : Entry → Option Str
  | { metadata := EntryMeta.step w _, .. } => some w
  | _ => none

def Entry.patchMeta : Entry → Option (Option Str)
  | { metadata := EntryMeta.root p _ _, .. } => some p
  | _ => none

def dummyEntry : Entry :=
  { id := 0, parent := none, actions := [], thought := none,
    metadata := EntryMeta.step [] [] }

/-- The root entry built from the step-zero record. -/
def mkRoot (d : RawDict) (ts : List RawDict) : Entry :=
  { id := 0
    parent := none
    actions := [ParsedAction.beginInteraction (d.content.getD [])
      (d.repo.getD (strL "unknown/unknown"))
      (extract_problem_from_content (d.content.getD []))]
    thought := none
    metadata := EntryMeta.root (rootPatch ts) (strL "NA") (strL "MAIN") }

/-- The classification of one clustered group: each action paired with the
observation at the same index (empty when the observations array is
shorter), classified and concatenated. -/
def clusteredParsedAux (obs : List Str) : Nat → List Str → List ParsedAction
  | _, [] => []
  | i, a :: rest => parse_action a (obs.getD i []) ++ clusteredParsedAux obs (i + 1) rest

def clusteredParsed (d : RawDict) : List ParsedAction :=
  clusteredParsedAux (d.observationsArr.getD []) 0 (d.actionsArr.getD [])

/-- The first record in the list exposing a truthy (non-empty)
`output.workspace`. -/
def first_truthy_workspace : List ParsedAction → Option Str
  | [] => none
  | a :: rest =>
    match get_workspace_from_action a with
    | some w => if w = [] then first_truthy_workspace rest else some w
    | none => first_truthy_workspace rest

/-- The classified actions of one merged step. -/
def stepActions (d : RawDict) : List ParsedAction :=
  if pyEqTrue d.clustered then clusteredParsed d
  else parse_action (d.action.getD []) (d.observation.getD [])

/-- The `thought` of one merged step (clustered groups fall back to
`summary`). -/
def stepThought (d : RawDict) : Str :=
  if pyEqTrue d.clustered then d.thought.getD (d.summary.getD [])
  else d.thought.getD []

/-- The workspace-tracker update after one step: clustered groups scan their
records in reverse (last truthy snapshot wins), ordinary steps scan forward
(first truthy snapshot wins); without a truthy snapshot the tracker keeps
its value. -/
def stepNewWorkspace (w : Str) (d : RawDict) (acts : List ParsedAction) : Str :=
  if pyEqTrue d.clustered then (first_truthy_workspace acts.reverse).getD w
  else (first_truthy_workspace acts).getD w

/-- The per-step loop of `convert_trajectory`: `startId` is `len(result)` on
entry to each iteration, `w` the tracker value. -/
def convertSteps (startId : Nat) (w : Str) : List RawDict → List Entry
  | [] => []
  | d :: rest =>
    if d.isStepZero then convertSteps startId w rest
    else
      let acts := stepActions d
      let w2 := stepNewWorkspace w d acts
      { id := startId
        parent := if 0 < startId then some (startId - 1) else none
        actions := acts
        thought := some (stepThought d)
        metadata := EntryMeta.step w2 (strL "TESTING") } :: convertSteps (startId + 1) w2 rest

def rootEntries (input : List RawItem) : List Entry :=
  match stepZeroOf input with
  | some d => [mkRoot d (trajectorySteps input)]
  | none => []

/-- Function `convert_trajectory`. -/
def convert_trajectory (input : List RawItem) : List Entry :=
  rootEntries input ++
    convertSteps (rootEntries input).length initWorkspace (mergedSteps input)

/-! ### Derived notions used by the claims -/

/-- The workspace snapshots produced (in order) by the classified actions
of one merged step. -/
def stepSnapshots (d : RawDict) : List Str :=
  (stepActions d).filterMap get_workspace_from_action

/-- The most recently produced workspace snapshot at or before step `j` of
the merged sequence, defaulting to the initial tracker value. -/
def lastSnapshotUpTo (input : List RawItem) (j : Nat) : Str :=
  (((((mergedSteps input).take (j + 1)).map stepSnapshots).flatten).getLast?).getD
    initWorkspace

/-- The step-zero candidates of the input, in input order (the scan keeps
the last one). -/
def szCands (l : List RawItem) : List RawDict :=
  l.filterMap fun it =>
    match it with
    | .dict d => if d.isStepZero then some d else none
    | .nondict => none

/-- The ordinary (`clustered == False`) mappings of the input, in input
order. -/
def filterTraj (l : List RawItem) : List RawDict :=
  l.filterMap fun it =>
    match it with
    | .dict d =>
      if ¬d.isStepZero ∧ ¬pyEqTrue d.clustered ∧ pyEqFalse d.clustered then some d else none
    | .nondict => none

/-- The clustered (`clustered == True`) mappings of the input, in input
order. -/
def filterClu (l : List RawItem) : List RawDict :=
  l.filterMap fun it =>
    match it with
    | .dict d => if ¬d.isStepZero ∧ pyEqTrue d.clustered then some d else none
    | .nondict => none

/-- Strict comparison of sort keys (antisymmetric, used to show that two
sorted permutations with distinct keys coincide). -/
def stepKeyLT (a b : RawDict) : Prop := sortKey a < sortKey b

instance : IsAntisymm RawDict stepKeyLT :=
  ⟨fun _ _ h h' => absurd (Int.lt_trans h h') (Int.lt_irrefl _)⟩

/-! ### Claim-side definitions (worded after the spec, for comparison) -/

/-- Claim wording of C6: every integer standing immediately after a line
break, with no intervening characters. -/
def specImmediateLineNumbers : Str → List Nat
  | [] => []
  | c :: rest =>
    if c = '\n' ∧ rest.takeWhile isDigit ≠ [] then
      strToNat (rest.takeWhile isDigit) :: specImmediateLineNumbers rest
    else specImmediateLineNumbers rest

/-- Claim wording of C7: the directory-view command as printed in the spec,
whose quoted glob contains two backslashes. -/
def specClaimedFindCmd (path : Str) : Str :=
  strL "find " ++ path ++ strL " -maxdepth 2 -not -path " ++ [sq] ++ strL "*/\\\\.*" ++ [sq]

/-- Claim wording of C4: the observation of whichever step among ALL merged
ordinary and clustered steps has the numerically largest `originalIndex`. -/
def specLargestMergedObservation (input : List RawItem) : Option Str :=
  match mergedSteps input with
  | [] => none
  | m :: rest => (pyMaxBy m rest).observation

/-! ### Concrete inputs used by counterexamples and witnesses -/

/-- A step-zero record followed by one ordinary step (witness input). -/
def exInputC1 : List RawItem :=
  [.dict { isStepZero := true, content := some (strL "c"), repo := some (strL "r") },
   .dict { clustered := some (.cbool false), action := some (strL "ls"),
           observation := some (strL "out"), originalIndex := some 1 }]

/-- One ordinary step viewing a file, then one plain command (witness input
for workspace carry-forward). -/
def exInputC2 : List RawItem :=
  [.dict { clustered := some (.cbool false), originalIndex := some 0,
           action := some (strL "str_replace_editor view /a.py"),
           observation := some (strL "header\nbody1\nbody2") },
   .dict { clustered := some (.cbool false), originalIndex := some 1,
           action := some (strL "pytest"), observation := some (strL "ok") }]

/-- Two ordinary steps with the same (defaulted) `originalIndex` but
different observations. -/
def exInputC3A : List RawItem :=
  [.dict { clustered := some (.cbool false), action := some (strL "x"),
           observation := some (strL "a") },
   .dict { clustered := some (.cbool false), action := some (strL "x"),
           observation := some (strL "b") }]

def exInputC3B : List RawItem := exInputC3A.reverse

/-- Step zero, an ordinary step at index 1, and a clustered step at the
strictly larger index 5. -/
def exInputC4 : List RawItem :=
  [.dict { isStepZero := true },
   .dict { clustered := some (.cbool false), originalIndex := some 1,
           action := some (strL "x"), observation := some (strL "ord") },
   .dict { clustered := some (.cbool true), originalIndex := some 5,
           actionsArr := some [], observationsArr := some [],
           observation := some (strL "clu") }]

def exActC6 : Str := strL "str_replace_editor str_replace /f.py --old_str a --new_str b"

/-- An observation whose only integer is separated from the line break by a
space. -/
def exObsC6 : Str := strL "\n 7"

def exActC7 : Str := strL "str_replace_editor view /testbed"

def exObsC7 : Str := dirPreamble ++ strL "\nfoo.py\nbar.py"

/-- A string of the shape `E₁ ++ E ++ E₂` with `E₁ ++ E₂ = E` (the clipped
ending split after its first character): removing the embedded occurrence of
the ending splices the flanks into a fresh occurrence. -/
def spliceC8 : Str := [Char.ofNat 60] ++ clippedEnding ++ clippedEnding.drop 1

/-- A one-step prefix used by the C9 witness. -/
def exInputC9pre : List RawItem :=
  [RawItem.dict { action := some (strL "ls"), clustered := some (.cbool false) }]

/-- Two ordinary steps with distinct `originalIndex` keys (witness input
for the amended ordering claim). -/
def exInputC3A' : List RawItem :=
  [.dict { clustered := some (.cbool false), originalIndex := some 2,
           action := some (strL "x"), observation := some (strL "a") },
   .dict { clustered := some (.cbool false), originalIndex := some 1,
           action := some (strL "y"), observation := some (strL "b") }]

def exInputC3B' : List RawItem := exInputC3A'.reverse

/-- A mapping whose `clustered` field holds the integer 1. -/
def exDictC9 : RawDict :=
  { clustered := some (.cint 1), actionsArr := some [], observationsArr := some [] }

theorem parse_action_length (a o : Str) : (parse_action a o).length = 1 := by
  unfold parse_action
  repeat' split
  all_goals rfl

theorem initWorkspace_length : initWorkspace.length = 24 := by decide

theorem extract_workspace_big (o fp : Str) :
    initWorkspace.length < (extract_workspace_from_observation o fp).length := by
  rw [initWorkspace_length]
  unfold extract_workspace_from_observation
  have h1 : (strL "<workspace>\n").length = 12 := by decide
  have h2 : (strL "\n=========FILE CONTENT=======\n\n=========FILE CONTENT=======\n</workspace>").length = 72 := by decide
  have h3 : (strL "\n=========FILE CONTENT=======").length = 29 := by decide
  have h4 : (strL "\n=========FILE CONTENT=======\n</workspace>").length = 42 := by decide
  have h5 : (strL "\n=========FILE CONTENT=======\n").length = 30 := by decide
  split
  · simp only [List.length_append, h1, h2]
    omega
  · split
    · simp only [List.length_append, h1, h3, h4]
      omega
    · simp only [List.length_append, h1, h5, h4]
      omega

theorem createWorkspace_big (fc : Str) :
    initWorkspace.length < (createWorkspace fc).length := by
  rw [initWorkspace_length]
  unfold createWorkspace
  have h1 : (strL "<workspace>\n/testbed/reproduce.py\n=========FILE CONTENT=======\n").length = 63 := by decide
  have h4 : (strL "\n=========FILE CONTENT=======\n</workspace>").length = 42 := by decide
  simp only [List.length_append, h1, h4]
  omega

theorem parse_action_workspace_big (a o : Str) (x : ParsedAction)
    (hx : x ∈ parse_action a o) (w : Str)
    (hw : get_workspace_from_action x = some w) :
    initWorkspace.length < w.length := by
  unfold parse_action at hx
  repeat' split at hx
  all_goals simp only [List.mem_singleton] at hx
  all_goals subst hx
  all_goals simp only [get_workspace_from_action, Option.some.injEq] at hw
  all_goals first
    | exact Option.noConfusion hw
    | (subst hw; exact createWorkspace_big _)
    | (subst hw; exact extract_workspace_big _ _)


theorem first_truthy_eq_head (acts : List ParsedAction)
    (h : ∀ x ∈ acts, ∀ w, get_workspace_from_action x = some w → w ≠ []) :
    first_truthy_workspace acts = (acts.filterMap get_workspace_from_action).head? := by
  induction acts with
  | nil => rfl
  | cons a rest ih =>
    simp only [first_truthy_workspace, List.filterMap_cons]
    cases hgw : get_workspace_from_action a with
    | none => exact ih fun x hx => h x (List.mem_cons_of_mem _ hx)
    | some w =>
      have hne : w ≠ [] := h a (List.mem_cons_self _ _) w hgw
      simp [hne]

theorem clusteredParsedAux_mem (obs : List Str) (i : Nat) (l : List Str)
    (x : ParsedAction) (hx : x ∈ clusteredParsedAux obs i l) :
    ∃ a o, x ∈ parse_action a o := by
  induction l generalizing i with
  | nil => simp [clusteredParsedAux] at hx
  | cons a rest ih =>
    simp only [clusteredParsedAux, List.mem_append] at hx
    cases hx with
    | inl h => exact ⟨a, obs.getD i [], h⟩
    | inr h => exact ih (i + 1) h

theorem stepActions_mem (d : RawDict) (x : ParsedAction) (hx : x ∈ stepActions d) :
    ∃ a o, x ∈ parse_action a o := by
  unfold stepActions at hx
  split at hx
  · exact clusteredParsedAux_mem _ _ _ _ hx
  · exact ⟨_, _, hx⟩

theorem stepActions_ws_ne_nil (d : RawDict) (x : ParsedAction) (hx : x ∈ stepActions d)
    (w : Str) (hw : get_workspace_from_action x = some w) : w ≠ [] := by
  obtain ⟨a, o, hmem⟩ := stepActions_mem d x hx
  have := parse_action_workspace_big a o x hmem w hw
  intro hnil
  rw [hnil] at this
  simp at this

theorem head?_eq_getLast?_of_len_le_one {α : Type} (l : List α) (h : l.length ≤ 1) :
    l.head? = l.getLast? := by
  match l with
  | [] => rfl
  | [x] => rfl
  | x :: y :: rest => simp at h

theorem filterMap_length_le {α β : Type} (f : α → Option β) (l : List α) :
    (l.filterMap f).length ≤ l.length := by
  induction l with
  | nil => simp
  | cons a rest ih =>
    simp only [List.filterMap_cons]
    cases f a <;> simp <;> omega

theorem stepNewWorkspace_eq (w : Str) (d : RawDict) :
    stepNewWorkspace w d (stepActions d) = ((stepSnapshots d).getLast?).getD w := by
  have hne : ∀ x ∈ stepActions d, ∀ ws, get_workspace_from_action x = some ws → ws ≠ [] :=
    fun x hx ws hw => stepActions_ws_ne_nil d x hx ws hw
  unfold stepNewWorkspace stepSnapshots
  split
  · rw [first_truthy_eq_head _ (fun x hx => hne x (List.mem_reverse.mp hx)),
      List.filterMap_reverse, List.head?_reverse]
  · rename_i hcl
    rw [first_truthy_eq_head _ hne]
    congr 1
    apply head?_eq_getLast?_of_len_le_one
    have h1 := filterMap_length_le get_workspace_from_action (stepActions d)
    have h2 : (stepActions d).length = 1 := by
      unfold stepActions
      rw [if_neg hcl]
      exact parse_action_length _ _
    omega


theorem convertSteps_id_parent (steps : List RawDict) :
    ∀ startId w j, j < (convertSteps startId w steps).length →
      ((convertSteps startId w steps).getD j dummyEntry).id = startId + j ∧
      ((convertSteps startId w steps).getD j dummyEntry).parent =
        (if startId + j = 0 then none else some (startId + j - 1)) := by
  induction steps with
  | nil => intro startId w j h; simp [convertSteps] at h
  | cons d rest ih =>
    intro startId w j h
    by_cases hz : d.isStepZero
    · simp only [convertSteps, if_pos hz] at h ⊢
      exact ih startId w j h
    · simp only [convertSteps, if_neg hz] at h ⊢
      cases j with
      | zero =>
        constructor
        · simp
        · simp only [List.getD_cons_zero, Nat.add_zero]
          cases startId with
          | zero => simp
          | succ n => simp
      | succ j =>
        simp only [List.getD_cons_succ]
        simp only [List.length_cons, Nat.add_lt_add_iff_right] at h
        have := ih (startId + 1) _ j h
        have harith : startId + 1 + j = startId + (j + 1) := by omega
        rw [harith] at this
        exact this

theorem getLast?_getD_append {α : Type} (l m : List α) (w : α) :
    (((l ++ m).getLast?).getD w) = ((m.getLast?).getD ((l.getLast?).getD w)) := by
  cases hm : m with
  | nil => simp
  | cons x xs =>
    rw [List.getLast?_append_of_ne_nil l (by simp)]
    cases hlast : (x :: xs).getLast? with
    | none => simp [List.getLast?] at hlast
    | some v => simp

theorem convertSteps_workspace (steps : List RawDict) :
    ∀ startId w j, (∀ d ∈ steps, d.isStepZero = false) → j < steps.length →
      ((convertSteps startId w steps).getD j dummyEntry).workspaceMeta =
        some ((((((steps.take (j + 1)).map stepSnapshots).flatten).getLast?).getD w)) := by
  induction steps with
  | nil => intro _ _ j _ h; simp at h
  | cons d rest ih =>
    intro startId w j hz h
    have hdz : d.isStepZero = false := hz d (List.mem_cons_self _ _)
    simp only [convertSteps, hdz, Bool.false_eq_true, if_false]
    cases j with
    | zero =>
      simp only [List.getD_cons_zero, List.take_succ_cons, List.take_zero, List.map_cons,
        List.map_nil, List.flatten_cons, List.flatten_nil, List.append_nil]
      rw [stepNewWorkspace_eq]
      rfl
    | succ j =>
      simp only [List.getD_cons_succ, List.length_cons, Nat.add_lt_add_iff_right] at *
      rw [ih (startId + 1) (stepNewWorkspace w d (stepActions d)) j
        (fun x hx => hz x (List.mem_cons_of_mem _ hx)) h]
      simp only [List.take_succ_cons, List.map_cons, List.flatten_cons]
      rw [getLast?_getD_append, stepNewWorkspace_eq]

theorem snapshot_ne_init (d : RawDict) (s : Str) (hs : s ∈ stepSnapshots d) :
    s ≠ initWorkspace := by
  unfold stepSnapshots at hs
  rw [List.mem_filterMap] at hs
  obtain ⟨x, hx, hw⟩ := hs
  obtain ⟨a, o, hmem⟩ := stepActions_mem d x hx
  have := parse_action_workspace_big a o x hmem s hw
  intro he
  rw [he] at this
  omega


theorem szCands_cons_dict (d : RawDict) (rest : List RawItem) :
    szCands (.dict d :: rest) =
      if d.isStepZero then d :: szCands rest else szCands rest := by
  by_cases h : d.isStepZero
  · simp only [szCands, List.filterMap_cons, if_pos h]
  · simp only [szCands, List.filterMap_cons, if_neg h]

theorem filterTraj_cons_dict (d : RawDict) (rest : List RawItem) :
    filterTraj (.dict d :: rest) =
      if ¬d.isStepZero ∧ ¬pyEqTrue d.clustered ∧ pyEqFalse d.clustered then
        d :: filterTraj rest
      else filterTraj rest := by
  by_cases h : ¬d.isStepZero ∧ ¬pyEqTrue d.clustered ∧ pyEqFalse d.clustered
  · simp only [filterTraj, List.filterMap_cons, if_pos h]
  · simp only [filterTraj, List.filterMap_cons, if_neg h]

theorem filterClu_cons_dict (d : RawDict) (rest : List RawItem) :
    filterClu (.dict d :: rest) =
      if ¬d.isStepZero ∧ pyEqTrue d.clustered then d :: filterClu rest
      else filterClu rest := by
  by_cases h : ¬d.isStepZero ∧ pyEqTrue d.clustered
  · simp only [filterClu, List.filterMap_cons, if_pos h]
  · simp only [filterClu, List.filterMap_cons, if_neg h]

theorem getLast?_cons_or {a : Type} (x : a) (l : List a) (o : Option a) :
    ((x :: l).getLast?).or o = (l.getLast?).or (some x) := by
  cases hl : l with
  | nil => rfl
  | cons y ys =>
    rw [List.getLast?_cons_cons]
    cases hlast : (y :: ys).getLast? with
    | none => simp [List.getLast?] at hlast
    | some v => rfl

theorem scanItems_eq (l : List RawItem) :
    ∀ sz ts cs, scanItems (sz, ts, cs) l =
      (((szCands l).getLast?).or sz, ts ++ filterTraj l, cs ++ filterClu l) := by
  induction l with
  | nil => intro sz ts cs; simp [scanItems, szCands, filterTraj, filterClu]
  | cons it rest ih =>
    intro sz ts cs
    cases it with
    | nondict =>
      show scanItems (sz, ts, cs) rest = _
      rw [ih sz ts cs]
      rfl
    | dict d =>
      by_cases hz : d.isStepZero
      · simp only [scanItems]
        rw [if_pos hz, ih (some d) ts cs, szCands_cons_dict,
          filterTraj_cons_dict, filterClu_cons_dict, if_pos hz,
          if_neg (by simp [hz]), if_neg (by simp [hz]), getLast?_cons_or]
      · by_cases ht : pyEqTrue d.clustered
        · simp only [scanItems]
          rw [if_neg hz, if_pos ht, ih sz ts (cs ++ [d]), szCands_cons_dict,
            filterTraj_cons_dict, filterClu_cons_dict, if_neg hz,
            if_neg (by simp [ht]), if_pos (by simp [hz, ht]),
            List.append_assoc, List.singleton_append]
        · by_cases hf : pyEqFalse d.clustered
          · simp only [scanItems]
            rw [if_neg hz, if_neg ht, if_pos hf, ih sz (ts ++ [d]) cs,
              szCands_cons_dict, filterTraj_cons_dict, filterClu_cons_dict,
              if_neg hz, if_pos (by simp [hz, ht, hf]), if_neg (by simp [ht]),
              List.append_assoc, List.singleton_append]
          · simp only [scanItems]
            rw [if_neg hz, if_neg ht, if_neg hf, ih sz ts cs, szCands_cons_dict,
              filterTraj_cons_dict, filterClu_cons_dict, if_neg hz,
              if_neg (by simp [hf]), if_neg (by simp [ht])]

theorem stepZeroOf_eq (input : List RawItem) :
    stepZeroOf input = (szCands input).getLast? := by
  unfold stepZeroOf
  rw [scanItems_eq]
  simp

theorem trajectorySteps_eq (input : List RawItem) :
    trajectorySteps input = sortSteps (filterTraj input) := by
  unfold trajectorySteps
  rw [scanItems_eq]
  simp

theorem clusteredStepsOf_eq (input : List RawItem) :
    clusteredStepsOf input = sortSteps (filterClu input) := by
  unfold clusteredStepsOf
  rw [scanItems_eq]
  simp

theorem filterTraj_not_zero (l : List RawItem) (d : RawDict) (hd : d ∈ filterTraj l) :
    d.isStepZero = false := by
  unfold filterTraj at hd
  rw [List.mem_filterMap] at hd
  obtain ⟨it, _, hit⟩ := hd
  cases it with
  | nondict => simp at hit
  | dict d' =>
    simp only at hit
    split at hit
    · rename_i hcond
      cases hit
      simpa using hcond.1
    · simp at hit

theorem filterClu_not_zero (l : List RawItem) (d : RawDict) (hd : d ∈ filterClu l) :
    d.isStepZero = false := by
  unfold filterClu at hd
  rw [List.mem_filterMap] at hd
  obtain ⟨it, _, hit⟩ := hd
  cases it with
  | nondict => simp at hit
  | dict d' =>
    simp only at hit
    split at hit
    · rename_i hcond
      cases hit
      simpa using hcond.1
    · simp at hit

theorem sortSteps_perm (l : List RawDict) : (sortSteps l).Perm l :=
  List.perm_insertionSort stepLE l

theorem mergedSteps_not_zero (input : List RawItem) (d : RawDict)
    (hd : d ∈ mergedSteps input) : d.isStepZero = false := by
  unfold mergedSteps at hd
  have h1 := (sortSteps_perm _).mem_iff.mp hd
  rw [List.mem_append] at h1
  cases h1 with
  | inl h =>
    rw [trajectorySteps_eq] at h
    exact filterTraj_not_zero input d ((sortSteps_perm _).mem_iff.mp h)
  | inr h =>
    rw [clusteredStepsOf_eq] at h
    exact filterClu_not_zero input d ((sortSteps_perm _).mem_iff.mp h)

theorem convertSteps_length (steps : List RawDict) :
    ∀ startId w, (∀ d ∈ steps, d.isStepZero = false) →
      (convertSteps startId w steps).length = steps.length := by
  induction steps with
  | nil => intro _ _ _; rfl
  | cons d rest ih =>
    intro startId w hz
    have hdz : d.isStepZero = false := hz d (List.mem_cons_self _ _)
    simp only [convertSteps, hdz, Bool.false_eq_true, if_false, List.length_cons]
    rw [ih _ _ (fun x hx => hz x (List.mem_cons_of_mem _ hx))]

theorem pyMaxBy_mem (l : List RawDict) : ∀ m, pyMaxBy m l ∈ m :: l := by
  induction l with
  | nil => intro m; simp [pyMaxBy]
  | cons x xs ih =>
    intro m
    simp only [pyMaxBy]
    split
    · have := ih x
      simp only [List.mem_cons] at this ⊢
      tauto
    · have := ih m
      simp only [List.mem_cons] at this ⊢
      tauto

theorem pyMaxBy_ge (l : List RawDict) :
    ∀ m x, x ∈ m :: l → sortKey x ≤ sortKey (pyMaxBy m l) := by
  induction l with
  | nil =>
    intro m x hx
    simp only [List.mem_cons, List.not_mem_nil, or_false] at hx
    rw [hx]
    exact le_refl _
  | cons y ys ih =>
    intro m x hx
    simp only [pyMaxBy]
    split
    · rename_i hlt
      rcases List.mem_cons.mp hx with h1 | hrest
      · rw [h1]
        exact le_trans (le_of_lt hlt) (ih y y (List.mem_cons_self _ _))
      · exact ih y x hrest
    · rename_i hnlt
      rcases List.mem_cons.mp hx with h1 | hrest
      · rw [h1]
        exact ih m m (List.mem_cons_self _ _)
      · rcases List.mem_cons.mp hrest with h2 | h3
        · rw [h2]
          exact le_trans (le_of_not_lt hnlt) (ih m m (List.mem_cons_self _ _))
        · exact ih m x (List.mem_cons_of_mem _ h3)


/-- Claim C1: the output entries of `convert_trajectory` carry ids `0..N-1`
contiguously in emission order, every entry with positive id has
`parent = id - 1`, and the first emitted entry has no parent. -/
theorem C1_ids_and_parents (input : List RawItem) (i : Nat)
    (h : i < (convert_trajectory input).length) :
    ((convert_trajectory input).getD i dummyEntry).id = i ∧
    ((convert_trajectory input).getD i dummyEntry).parent =
      (if i = 0 then none else some (i - 1)) := by
  unfold convert_trajectory at h ⊢
  cases hz : stepZeroOf input with
  | none =>
    have hre : rootEntries input = [] := by unfold rootEntries; rw [hz]
    rw [hre] at h ⊢
    simp only [List.nil_append, List.length_nil] at h ⊢
    have := convertSteps_id_parent (mergedSteps input) 0 initWorkspace i h
    simpa using this
  | some d =>
    have hre : rootEntries input = [mkRoot d (trajectorySteps input)] := by
      unfold rootEntries; rw [hz]
    rw [hre] at h ⊢
    cases i with
    | zero => exact ⟨rfl, rfl⟩
    | succ i =>
      simp only [List.singleton_append, List.getD_cons_succ, List.length_cons,
        List.length_singleton, Nat.add_lt_add_iff_right] at h ⊢
      have := convertSteps_id_parent (mergedSteps input) 1 initWorkspace i (by simpa using h)
      rw [Nat.add_comm 1 i] at this
      simpa using this

theorem C1_witness :
    1 < (convert_trajectory exInputC1).length ∧
    (((convert_trajectory exInputC1).getD 1 dummyEntry).id = 1 ∧
     ((convert_trajectory exInputC1).getD 1 dummyEntry).parent =
       (if 1 = 0 then none else some (1 - 1))) :=
  ⟨by decide, C1_ids_and_parents exInputC1 1 (by decide)⟩

/-- Claim C2: on every non-root entry, `metadata.workspace` equals the most
recently produced workspace snapshot at or before that entry (the initial
empty-delimiter tracker value when none was produced yet), and once it is
not that default it never reverts to it. -/
theorem C2_workspace_carry (input : List RawItem) (j : Nat)
    (h : j < (mergedSteps input).length) :
    ((convert_trajectory input).getD ((rootEntries input).length + j) dummyEntry).workspaceMeta
      = some (lastSnapshotUpTo input j) ∧
    (∀ k, j ≤ k → k < (mergedSteps input).length →
      lastSnapshotUpTo input j ≠ initWorkspace →
      lastSnapshotUpTo input k ≠ initWorkspace) := by
  have hnz : ∀ d ∈ mergedSteps input, d.isStepZero = false :=
    fun d hd => mergedSteps_not_zero input d hd
  constructor
  · unfold convert_trajectory
    rw [List.getD_append_right _ _ _ _ (by omega)]
    have harith : (rootEntries input).length + j - (rootEntries input).length = j := by omega
    rw [harith]
    exact convertSteps_workspace (mergedSteps input) _ initWorkspace j hnz h
  · intro k hjk hk hne
    unfold lastSnapshotUpTo at *
    have hsplit : (mergedSteps input).take (k + 1) =
        (mergedSteps input).take (j + 1) ++
          (((mergedSteps input).take (k + 1)).drop (j + 1)) := by
      conv_lhs => rw [← List.take_append_drop (j + 1) ((mergedSteps input).take (k + 1))]
      rw [List.take_take, Nat.min_eq_left (by omega)]
    rw [hsplit, List.map_append, List.flatten_append, getLast?_getD_append]
    set tailpart := ((((mergedSteps input).take (k + 1)).drop (j + 1)).map stepSnapshots).flatten with htp
    cases hlast : tailpart.getLast? with
    | none => simpa using hne
    | some s =>
      have hsmem : s ∈ tailpart := by
        obtain ⟨ys, hys⟩ := List.getLast?_eq_some_iff.mp hlast
        rw [hys]
        simp
      rw [htp, List.mem_flatten] at hsmem
      obtain ⟨ls, hls, hsin⟩ := hsmem
      rw [List.mem_map] at hls
      obtain ⟨d, _, hdls⟩ := hls
      have := snapshot_ne_init d s (hdls ▸ hsin)
      simpa using this

theorem C2_witness :
    0 < (mergedSteps exInputC2).length ∧
    (((convert_trajectory exInputC2).getD ((rootEntries exInputC2).length + 0)
        dummyEntry).workspaceMeta = some (lastSnapshotUpTo exInputC2 0) ∧
     (∀ k, 0 ≤ k → k < (mergedSteps exInputC2).length →
       lastSnapshotUpTo exInputC2 0 ≠ initWorkspace →
       lastSnapshotUpTo exInputC2 k ≠ initWorkspace)) :=
  ⟨by decide, C2_workspace_carry exInputC2 0 (by decide)⟩


/-- Counterexample to claim C4: with an ordinary step at `originalIndex = 1`
and a clustered step at `originalIndex = 5`, the code takes the root patch
from the ordinary step (observation `"ord"`), not from the merged step with
the largest index (the clustered one, observation `"clu"`). -/
theorem C4_counterexample :
    ((convert_trajectory exInputC4).getD 0 dummyEntry).patchMeta = some (some (strL "ord")) ∧
    specLargestMergedObservation exInputC4 = some (strL "clu") ∧
    (some (strL "ord") : Option Str) ≠ some (strL "clu") := by
  refine ⟨by decide, by decide, by decide⟩

/-- Amended claim C4: when a step-zero record is present, the root field
`metadata.patch` is the observation of the ordinary (non-clustered) step
with the numerically largest `originalIndex` — the fixed placeholder
standing in when that step has no observation — and is null when no
ordinary steps exist; `pyMaxBy` indeed attains the largest key. -/
theorem C4_amended (input : List RawItem) (d : RawDict)
    (h : stepZeroOf input = some d) :
    ((convert_trajectory input).getD 0 dummyEntry).patchMeta =
      some (match trajectorySteps input with
        | [] => none
        | m :: rest => some ((pyMaxBy m rest).observation.getD placeholderObs)) ∧
    (∀ m rest, trajectorySteps input = m :: rest →
      pyMaxBy m rest ∈ trajectorySteps input ∧
      ∀ x ∈ trajectorySteps input, sortKey x ≤ sortKey (pyMaxBy m rest)) := by
  constructor
  · unfold convert_trajectory rootEntries
    rw [h]
    rfl
  · intro m rest hts
    rw [hts]
    exact ⟨pyMaxBy_mem rest m, fun x hx => pyMaxBy_ge rest m x hx⟩

theorem C4_witness :
    stepZeroOf exInputC4 = some { isStepZero := true } ∧
    (((convert_trajectory exInputC4).getD 0 dummyEntry).patchMeta =
      some (match trajectorySteps exInputC4 with
        | [] => none
        | m :: rest => some ((pyMaxBy m rest).observation.getD placeholderObs)) ∧
    (∀ m rest, trajectorySteps exInputC4 = m :: rest →
      pyMaxBy m rest ∈ trajectorySteps exInputC4 ∧
      ∀ x ∈ trajectorySteps exInputC4, sortKey x ≤ sortKey (pyMaxBy m rest))) :=
  ⟨by decide, C4_amended exInputC4 { isStepZero := true } (by decide)⟩

/-- Claim C5: the classifier is total, and an action that matches none of
the command patterns (and is neither empty nor `submit`) falls back to a
single `executeCmd` record with `cmd` the raw action text and `stdout` the
observation (the empty string standing in for an absent observation). -/
theorem C5_fallback (a o : Str) (h1 : a ≠ []) (h2 : pyStrip a ≠ submitLit)
    (h3 : matchCreate (pyStrip a) = none)
    (h4 : matchStrReplace (pyStrip a) = none)
    (h5 : matchViewRange (pyStrip a) = none)
    (h6 : matchView (pyStrip a) = none) :
    parse_action a o = [ParsedAction.executeCmd a o] := by
  unfold parse_action
  rw [if_neg h1, if_neg h2, h3, h4, h5, h6]

theorem C5_witness :
    (strL "pytest -x" ≠ [] ∧ pyStrip (strL "pytest -x") ≠ submitLit ∧
     matchCreate (pyStrip (strL "pytest -x")) = none ∧
     matchStrReplace (pyStrip (strL "pytest -x")) = none ∧
     matchViewRange (pyStrip (strL "pytest -x")) = none ∧
     matchView (pyStrip (strL "pytest -x")) = none) ∧
    parse_action (strL "pytest -x") (strL "1 passed") =
      [ParsedAction.executeCmd (strL "pytest -x") (strL "1 passed")] :=
  ⟨⟨by decide, by decide, by decide, by decide, by decide, by decide⟩,
   C5_fallback (strL "pytest -x") (strL "1 passed") (by decide) (by decide)
     (by decide) (by decide) (by decide) (by decide)⟩

/-- Counterexample to claim C6: in the observation `"\n 7"` no integer
stands immediately after a line break (a space intervenes), so the claim
says both line fields are absent; the code nevertheless collects `7`
through the `\s*` of its regex and sets `replace_start_line = 11`. -/
theorem C6_counterexample :
    parse_action exActC6 exObsC6 =
      [ParsedAction.replaceCodeString (strL "/f.py") (strL "a") (strL "b")
        (some 11) (some 3)
        (extract_workspace_from_observation exObsC6 (strL "/f.py"))] ∧
    specImmediateLineNumbers exObsC6 = [] := by
  refine ⟨by decide, by decide⟩

/-- Amended claim C6: the candidates are the maximal digit runs that follow
a line break, possibly separated from it by whitespace (`findLineNumbers`);
when any exist, `replace_start_line = min + 4` and
`replace_end_line = max - 4` (as integers), otherwise both are absent. -/
theorem C6_amended (a o fp olds news : Str) (h1 : a ≠ [])
    (h2 : pyStrip a ≠ submitLit) (h3 : matchCreate (pyStrip a) = none)
    (h4 : matchStrReplace (pyStrip a) = some (fp, olds, news)) :
    parse_action a o =
      [ParsedAction.replaceCodeString (pyStrip fp) (pyStrip olds) (pyStrip news)
        (if findLineNumbers o = [] then none
         else some ((listMin (findLineNumbers o) : Int) + 4))
        (if findLineNumbers o = [] then none
         else some ((listMax (findLineNumbers o) : Int) - 4))
        (extract_workspace_from_observation (cleaned_replace_observation o) (pyStrip fp))] := by
  unfold parse_action
  rw [if_neg h1, if_neg h2, h3, h4]

theorem C6_witness :
    (exActC6 ≠ [] ∧ pyStrip exActC6 ≠ submitLit ∧
     matchCreate (pyStrip exActC6) = none ∧
     matchStrReplace (pyStrip exActC6) = some (strL "/f.py", strL "a", strL "b") ∧
     findLineNumbers (strL "ok\n   10 x\n   20 y") = [10, 20] ∧
     listMin [10, 20] + 4 = 14 ∧ listMax [10, 20] - 4 = 16) ∧
    parse_action exActC6 (strL "ok\n   10 x\n   20 y") =
      [ParsedAction.replaceCodeString (strL "/f.py") (strL "a") (strL "b")
        (if findLineNumbers (strL "ok\n   10 x\n   20 y") = [] then none
         else some ((listMin (findLineNumbers (strL "ok\n   10 x\n   20 y")) : Int) + 4))
        (if findLineNumbers (strL "ok\n   10 x\n   20 y") = [] then none
         else some ((listMax (findLineNumbers (strL "ok\n   10 x\n   20 y")) : Int) - 4))
        (extract_workspace_from_observation
          (cleaned_replace_observation (strL "ok\n   10 x\n   20 y")) (strL "/f.py"))] :=
  ⟨⟨by decide, by decide, by decide, by decide, by decide, by decide, by decide⟩,
   C6_amended exActC6 (strL "ok\n   10 x\n   20 y") (strL "/f.py") (strL "a") (strL "b")
     (by decide) (by decide) (by decide) (by decide)⟩


/-- Counterexample to claim C7: the synthesized directory-view command ends
in a single-backslash glob, not the two-backslash glob the claim prints. -/
theorem C7_counterexample :
    parse_action exActC7 exObsC7 =
      [ParsedAction.executeCmd (findCmd (strL "/testbed")) (strL "foo.py\nbar.py")] ∧
    findCmd (strL "/testbed") ≠ specClaimedFindCmd (strL "/testbed") := by
  refine ⟨by decide, by decide⟩

/-- Amended claim C7: for a rangeless `str_replace_editor view <path>`
action, an observation containing the directory-listing preamble yields one
`executeCmd` whose `cmd` is the `find` command with a single-backslash glob
and whose `stdout` is the trimmed text after the preamble; otherwise one
`openFile` on the path with a workspace built from the
truncation-notice-cleaned observation. -/
theorem C7_amended (a o p : Str) (h1 : a ≠ []) (h2 : pyStrip a ≠ submitLit)
    (h3 : matchCreate (pyStrip a) = none)
    (h4 : matchStrReplace (pyStrip a) = none)
    (h5 : matchViewRange (pyStrip a) = none)
    (h6 : matchView (pyStrip a) = some p) :
    parse_action a o =
      match (if o ≠ [] then afterFirst dirPreamble o else none) with
      | some tail => [ParsedAction.executeCmd (findCmd (pyStrip p)) (pyStrip tail)]
      | none =>
        [ParsedAction.openFile (pyStrip p)
          (extract_workspace_from_observation (clean_openfile_observation o) (pyStrip p))] := by
  unfold parse_action
  rw [if_neg h1, if_neg h2, h3, h4, h5, h6]

theorem C7_witness :
    (exActC7 ≠ [] ∧ pyStrip exActC7 ≠ submitLit ∧
     matchCreate (pyStrip exActC7) = none ∧
     matchStrReplace (pyStrip exActC7) = none ∧
     matchViewRange (pyStrip exActC7) = none ∧
     matchView (pyStrip exActC7) = some (strL "/testbed") ∧
     afterFirst dirPreamble exObsC7 = some (strL "\nfoo.py\nbar.py")) ∧
    parse_action exActC7 exObsC7 =
      match (if exObsC7 ≠ [] then afterFirst dirPreamble exObsC7 else none) with
      | some tail => [ParsedAction.executeCmd (findCmd (pyStrip (strL "/testbed"))) (pyStrip tail)]
      | none =>
        [ParsedAction.openFile (pyStrip (strL "/testbed"))
          (extract_workspace_from_observation (clean_openfile_observation exObsC7)
            (pyStrip (strL "/testbed")))] :=
  ⟨⟨by decide, by decide, by decide, by decide, by decide, by decide, by decide⟩,
   C7_amended exActC7 exObsC7 (strL "/testbed") (by decide) (by decide) (by decide)
     (by decide) (by decide) (by decide)⟩

set_option maxRecDepth 10000

/-- Counterexample to claim C8: the cleaner is not idempotent.  On
`spliceC8`, removing the embedded truncation notice splices its flanks into
a fresh copy of the notice, which a second application removes. -/
theorem C8_counterexample :
    clean_openfile_observation (clean_openfile_observation spliceC8) ≠
      clean_openfile_observation spliceC8 := by
  decide

/-- Amended claim C8: the cleaner is a no-op on any string not containing
the truncation-notice literal, and applying it twice equals applying it
once for every string whose once-cleaned form no longer contains the
literal (removal can splice flanking text into a new occurrence, in which
case a second application removes more). -/
theorem C8_amended :
    (∀ s : Str, pyContains clippedEnding s = false →
      clean_openfile_observation s = s) ∧
    (∀ s : Str, pyContains clippedEnding (clean_openfile_observation s) = false →
      clean_openfile_observation (clean_openfile_observation s) =
        clean_openfile_observation s) := by
  have hnoop : ∀ s : Str, pyContains clippedEnding s = false →
      clean_openfile_observation s = s := by
    intro s hs
    unfold clean_openfile_observation
    split
    · rfl
    · rw [hs]
      simp
  exact ⟨hnoop, fun s hs => hnoop _ hs⟩

theorem C8_witness :
    (pyContains clippedEnding (clean_openfile_observation (strL "short file")) = false) ∧
    clean_openfile_observation (clean_openfile_observation (strL "short file")) =
      clean_openfile_observation (strL "short file") :=
  ⟨by decide, C8_amended.2 (strL "short file") (by decide)⟩

/-- Counterexample to claim C9: a mapping whose `clustered` field holds the
integer `1` — neither exactly `true` nor exactly `false` and not marked
`isStepZero` — still contributes an output entry, because the Python `==`
identifies `1` with `True`. -/
theorem C9_counterexample :
    exDictC9.isStepZero = false ∧
    exDictC9.clustered ≠ some (CVal.cbool true) ∧
    exDictC9.clustered ≠ some (CVal.cbool false) ∧
    convert_trajectory [RawItem.dict exDictC9] ≠ [] := by
  refine ⟨by decide, by decide, by decide, by decide⟩

theorem scanItems_append (l₁ l₂ : List RawItem) :
    ∀ acc, scanItems acc (l₁ ++ l₂) = scanItems (scanItems acc l₁) l₂ := by
  induction l₁ with
  | nil => intro acc; obtain ⟨sz, ts, cs⟩ := acc; rfl
  | cons it rest ih =>
    intro acc
    obtain ⟨sz, ts, cs⟩ := acc
    cases it with
    | nondict => exact ih (sz, ts, cs)
    | dict d =>
      simp only [List.cons_append, scanItems]
      by_cases hz : d.isStepZero
      · rw [if_pos hz, if_pos hz]
        exact ih _
      · rw [if_neg hz, if_neg hz]
        by_cases ht : pyEqTrue d.clustered
        · rw [if_pos ht, if_pos ht]
          exact ih _
        · rw [if_neg ht, if_neg ht]
          by_cases hf : pyEqFalse d.clustered
          · rw [if_pos hf, if_pos hf]
            exact ih _
          · rw [if_neg hf, if_neg hf]
            exact ih _

/-- Amended claim C9: any element that is not a mapping, and any non-step-
zero mapping whose `clustered` value is Python-equal to neither `True` nor
`False` (so `1` counts as clustered and `0` as ordinary, while `null`,
strings and other numbers are dropped), contributes no output entry:
deleting it from the input leaves the conversion unchanged. -/
theorem C9_amended (pre post : List RawItem) (it : RawItem)
    (h : it = RawItem.nondict ∨
      ∃ d, it = RawItem.dict d ∧ d.isStepZero = false ∧
        pyEqTrue d.clustered = false ∧ pyEqFalse d.clustered = false) :
    convert_trajectory (pre ++ it :: post) = convert_trajectory (pre ++ post) := by
  have hskip : ∀ acc : Option RawDict × List RawDict × List RawDict,
      scanItems acc (it :: post) = scanItems acc post := by
    intro acc
    obtain ⟨sz, ts, cs⟩ := acc
    rcases h with rfl | ⟨d, rfl, hz, ht, hf⟩
    · rfl
    · simp only [scanItems, hz, ht, hf]
      rw [if_neg (by simp), if_neg (by simp), if_neg (by simp)]
  have hscan : scanItems (none, [], []) (pre ++ it :: post) =
      scanItems (none, [], []) (pre ++ post) := by
    rw [scanItems_append, scanItems_append, hskip]
  unfold convert_trajectory rootEntries mergedSteps trajectorySteps clusteredStepsOf stepZeroOf
  rw [hscan]

theorem C9_witness :
    convert_trajectory (exInputC9pre ++ RawItem.nondict :: []) =
      convert_trajectory (exInputC9pre ++ []) :=
  C9_amended exInputC9pre [] RawItem.nondict (Or.inl rfl)

/-- Claim C10: a matched create action yields one `createFile` record whose
workspace wraps the file content in the delimiter template with the literal
path line `/testbed/reproduce.py`, independent of the parsed `file_path`
(which only reaches `input.file_path`). -/
theorem C10_create_workspace (a o fp fc : Str) (h1 : a ≠ [])
    (h2 : pyStrip a ≠ submitLit)
    (h3 : matchCreate (pyStrip a) = some (fp, fc)) :
    parse_action a o =
      [ParsedAction.createFile (pyStrip fp) (pyStrip fc) (createWorkspace (pyStrip fc))] ∧
    createWorkspace (pyStrip fc) =
      strL "<workspace>\n/testbed/reproduce.py\n=========FILE CONTENT=======\n" ++
        pyStrip fc ++ strL "\n=========FILE CONTENT=======\n</workspace>" := by
  constructor
  · unfold parse_action
    rw [if_neg h1, if_neg h2, h3]
  · rfl

theorem C10_witness :
    (strL "str_replace_editor create /a.py --file_text x" ≠ [] ∧
     pyStrip (strL "str_replace_editor create /a.py --file_text x") ≠ submitLit ∧
     matchCreate (pyStrip (strL "str_replace_editor create /a.py --file_text x")) =
       some (strL "/a.py", strL "x")) ∧
    (parse_action (strL "str_replace_editor create /a.py --file_text x") (strL "done") =
      [ParsedAction.createFile (pyStrip (strL "/a.py")) (pyStrip (strL "x"))
        (createWorkspace (pyStrip (strL "x")))] ∧
    createWorkspace (pyStrip (strL "x")) =
      strL "<workspace>\n/testbed/reproduce.py\n=========FILE CONTENT=======\n" ++
        pyStrip (strL "x") ++ strL "\n=========FILE CONTENT=======\n</workspace>") :=
  ⟨⟨by decide, by decide, by decide⟩,
   C10_create_workspace (strL "str_replace_editor create /a.py --file_text x")
     (strL "done") (strL "/a.py") (strL "x") (by decide) (by decide) (by decide)⟩


theorem sorted_strict_of_nodup_keys (l : List RawDict) (hs : l.Sorted stepLE)
    (hnd : (l.map sortKey).Nodup) : l.Sorted stepKeyLT := by
  have h2 : l.Pairwise fun a b => sortKey a ≠ sortKey b :=
    List.pairwise_map.mp hnd
  exact (hs.and h2).imp fun h => lt_of_le_of_ne h.1 h.2

theorem sortSteps_eq_of_perm (l₁ l₂ : List RawDict) (hp : l₁.Perm l₂)
    (hnd : (l₁.map sortKey).Nodup) : sortSteps l₁ = sortSteps l₂ := by
  have hp1 : (sortSteps l₁).Perm (sortSteps l₂) :=
    ((sortSteps_perm l₁).trans hp).trans (sortSteps_perm l₂).symm
  have hnd1 : ((sortSteps l₁).map sortKey).Nodup :=
    (((sortSteps_perm l₁).map sortKey).nodup_iff).mpr hnd
  have hnd2 : ((sortSteps l₂).map sortKey).Nodup :=
    (((sortSteps_perm l₂).map sortKey).nodup_iff).mpr
      ((hp.map sortKey).nodup_iff.mp hnd)
  exact List.eq_of_perm_of_sorted hp1
    (sorted_strict_of_nodup_keys _ (List.sorted_insertionSort stepLE l₁) hnd1)
    (sorted_strict_of_nodup_keys _ (List.sorted_insertionSort stepLE l₂) hnd2)

theorem perm_eq_of_length_le_one {α : Type} (l₁ l₂ : List α) (hp : l₁.Perm l₂)
    (hl : l₁.length ≤ 1) : l₁ = l₂ := by
  match l₁, hl with
  | [], _ => rw [hp.nil_eq]
  | [x], _ => rw [(List.perm_singleton.mp hp.symm)]

/-- Counterexample to claim C3: two inputs that are permutations of each
other (two ordinary steps sharing the defaulted `originalIndex`, swapped)
convert to different outputs, because ties are broken by input order. -/
theorem C3_counterexample :
    exInputC3A.Perm exInputC3B ∧
    convert_trajectory exInputC3A ≠ convert_trajectory exInputC3B := by
  refine ⟨by decide, by decide⟩

/-- Amended claim C3: two inputs that are permutations of each other convert
to identical output provided the ordinary steps have pairwise distinct
`originalIndex` keys, the clustered steps have pairwise distinct keys, and
at most one element is marked step zero; output order is then strictly
determined by ascending `originalIndex` (ordinary before clustered on
cross-group ties). -/
theorem C3_amended (A B : List RawItem) (hperm : A.Perm B)
    (hts : ((filterTraj A).map sortKey).Nodup)
    (hcs : ((filterClu A).map sortKey).Nodup)
    (hsz : (szCands A).length ≤ 1) :
    convert_trajectory A = convert_trajectory B := by
  have hts_eq : trajectorySteps A = trajectorySteps B := by
    rw [trajectorySteps_eq, trajectorySteps_eq]
    exact sortSteps_eq_of_perm _ _ (hperm.filterMap _) hts
  have hcs_eq : clusteredStepsOf A = clusteredStepsOf B := by
    rw [clusteredStepsOf_eq, clusteredStepsOf_eq]
    exact sortSteps_eq_of_perm _ _ (hperm.filterMap _) hcs
  have hsz_eq : stepZeroOf A = stepZeroOf B := by
    rw [stepZeroOf_eq, stepZeroOf_eq,
      perm_eq_of_length_le_one (szCands A) (szCands B) (hperm.filterMap _) hsz]
  unfold convert_trajectory rootEntries mergedSteps
  rw [hsz_eq, hts_eq, hcs_eq]

theorem C3_witness :
    (exInputC3A'.Perm exInputC3B' ∧
     ((filterTraj exInputC3A').map sortKey).Nodup ∧
     ((filterClu exInputC3A').map sortKey).Nodup ∧
     (szCands exInputC3A').length ≤ 1) ∧
    convert_trajectory exInputC3A' = convert_trajectory exInputC3B' :=
  ⟨⟨by decide, by decide, by decide, by decide⟩,
   C3_amended exInputC3A' exInputC3B' (by decide) (by decide) (by decide) (by decide)⟩

end TrajConv
